import Mathlib

/-!
# Verification of the Hive metrics-mining pipeline

Shallow embedding of the two pipelines of this repository:

* `src/generate_git_understand.py` — the version-ordered, cache-aware
  metrics-extraction pipeline (`HiveMetricsCollector`): tag resolution
  (`get_version_commits`), checkout, the per-version artifact cache, the
  external analyzer invocations (`create_understand_db`, `get_metrics`),
  CSV row aggregation, and the `finally`-scoped `clean_repo` recovery,
  together with the `main` wrapper and its exception handlers.
* `src/generate_jira_git.py` / `src/main.py` — the issue-key to commit
  matcher (`search_commit`) and its batched driver (`process_issues_batch`).

Python strings are modelled as Lean `String`s; the fragments of the
standard library the code relies on (`str.split`, `str.strip`, `dict`,
`csv.DictWriter`, `list.sort`) are modelled by executable Lean functions
with the same semantics on the inputs that occur.  The external tools
(git, the Understand analyzer) are opaque environments: their observable
behaviour (exit status per invocation, file content they produce) is a
parameter, and every invocation is recorded in an event trace.
-/

/-! ## Semantic versions and the release-tag pattern

`VERSION_TAG_REGEX = ^(?:rel\/)?release-(?P<version>[234]\.\d+\.\d+)$`,
matched with `fullmatch` against each tag name in `get_version_commits`.
A parsed version is a `(major, minor, patch)` triple of naturals;
`packaging.version.Version` compares plain `X.Y.Z` strings exactly by
this triple, numerically.
-/

/-- A parsed semantic version: (major, minor, patch). -/
abbrev SemVer := Nat × Nat × Nat

/-- Numeric (major, minor, patch) comparison, the order used by
`packaging.version.Version` on plain `X.Y.Z` release strings. -/
def verLe (a b : SemVer) : Bool :=
  Nat.blt a.1 b.1 ||
    (Nat.beq a.1 b.1 &&
      (Nat.blt a.2.1 b.2.1 ||
        (Nat.beq a.2.1 b.2.1 && Nat.ble a.2.2 b.2.2)))

/-- Strict numeric (major, minor, patch) comparison. -/
def verLt (a b : SemVer) : Bool :=
  Nat.blt a.1 b.1 ||
    (Nat.beq a.1 b.1 &&
      (Nat.blt a.2.1 b.2.1 ||
        (Nat.beq a.2.1 b.2.1 && Nat.blt a.2.2 b.2.2)))

/-- Numeric value of a decimal digit character. -/
def digitVal (c : Char) : Nat := c.toNat - 48

/-- Split off the maximal run of leading decimal digits (the `\d+` of the
regex; the pattern's greedy match followed by a forced literal is
equivalent to taking the maximal digit run; digits are ASCII, the only
ones `packaging.version.Version` accepts afterwards). -/
def takeDigits : List Char → List Char × List Char
  | [] => ([], [])
  | c :: cs =>
    if c.isDigit then
      ((c :: (takeDigits cs).1), (takeDigits cs).2)
    else
      ([], c :: cs)

/-- Value of a digit run read in base 10. -/
def digitsToNat (ds : List Char) : Nat :=
  ds.foldl (fun n c => 10 * n + digitVal c) 0

/-- The version group of the regex: `[234]\.\d+\.\d+` anchored at the end
of the tag name (`fullmatch`). -/
def parseVersionChars : List Char → Option SemVer
  | major :: '.' :: rest1 =>
    if major == '2' || major == '3' || major == '4' then
      match takeDigits rest1 with
      | (ds1, '.' :: rest2) =>
        if ds1.isEmpty then none
        else
          match takeDigits rest2 with
          | (ds2, []) =>
            if ds2.isEmpty then none
            else some (digitVal major, digitsToNat ds1, digitsToNat ds2)
          | (_, _ :: _) => none
      | (_, []) => none
      | (_, _ :: _) => none
    else none
  | _ => none

/-- Strip a literal prefix from a character list, or fail. -/
def stripLit : List Char → List Char → Option (List Char)
  | [], cs => some cs
  | _ :: _, [] => none
  | p :: ps, c :: cs => if p == c then stripLit ps cs else none

/-- The characters of the optional `rel/` prefix of the regex. -/
def relSlashChars : List Char := ['r', 'e', 'l', '/']

/-- The characters of the mandatory `release-` literal of the regex. -/
def releaseDashChars : List Char := ['r', 'e', 'l', 'e', 'a', 's', 'e', '-']

/-- Match `release-[234]\.\d+\.\d+` against a full character list. -/
def matchReleaseCore (cs : List Char) : Option SemVer :=
  match stripLit releaseDashChars cs with
  | some rest => parseVersionChars rest
  | none => none

/-- `VERSION_TAG_REGEX.fullmatch(tag.name)`: the optional `rel/` group is
tried first; on failure the regex engine backtracks to the alternative
without the prefix. -/
def matchVersionTag (name : String) : Option SemVer :=
  match stripLit relSlashChars name.data with
  | some rest =>
    match matchReleaseCore rest with
    | some v => some v
    | none => matchReleaseCore name.data
  | none => matchReleaseCore name.data

/-- A repository tag: (tag name, hex sha of the tag's target commit). -/
abbrev RepoTag := String × String

/-- The (version, commit sha) pair a tag contributes, if its name matches
the release pattern. -/
def tagPair (t : RepoTag) : Option (SemVer × String) :=
  (matchVersionTag t.1).map (fun v => (v, t.2))

/-- `HiveMetricsCollector.get_version_commits`: every tag is matched
against `VERSION_TAG_REGEX`; non-matching tags are skipped; each matching
tag contributes one `(Version, hexsha)` pair; the list is then sorted in
place by `version_commits.sort(key=lambda x: x[0])` — CPython's stable
ascending sort by the `packaging` version order, which on these triples
is `verLe` on the first component. -/
def get_version_commits (tags : List RepoTag) : List (SemVer × String) :=
  List.insertionSort (fun a b : SemVer × String => verLe a.1 b.1 = true)
    (tags.filterMap tagPair)

example : matchVersionTag ("release-2.0.0") = some (2, 0, 0) := by decide

example : matchVersionTag ("rel/release-3.11.2") = some (3, 11, 2) := by decide

example : matchVersionTag ("rc-nightly") = none := by decide

example : matchVersionTag ("release-5.0.0") = none := by decide

example : matchVersionTag ("release-2.0.0-rc1") = none := by decide

example : matchVersionTag ("relrelease-2.0.0") = none := by decide

example :
    get_version_commits
      [("release-2.0.0", "a"), ("rc-nightly", "b"),
       ("release-3.1.0", "c"), ("release-2.10.0", "d")] =
      [((2, 0, 0), "a"), ((2, 10, 0), "d"), ((3, 1, 0), "c")] := by decide

/-! ## Declared metric names and parsing of the analyzer's CSV output

`HiveMetricsCollector.__init__` declares `self.metrics`, a list of 43
metric names (with `CountPath` listed twice, exactly as in the source).
`get_metrics` reads the analyzer's CSV file line by line: the first line
is skipped as a header; each further line is `line.strip().split(',')`;
a line whose first field is not the literal `File` is skipped; a line
whose field count is not `len(self.metrics) + 1` is skipped; otherwise a
record — a Python dict `{'File': values[0], **zip(self.metrics,
values[1:])}` — is appended.
-/

/-- `self.metrics` as declared in `HiveMetricsCollector.__init__`
(43 entries; `CountPath` occurs twice, as in the source). -/
def METRICS : List String :=
  ["AvgCyclomatic", "AvgCyclomaticModified", "AvgCyclomaticStrict",
   "AvgEssential", "AvgLine", "AvgLineBlank", "AvgLineCode", "AvgLineComment",
   "CountDeclClass", "CountDeclExecutableUnit", "CountDeclFunction",
   "CountDeclInstanceVariable", "CountDeclMethod", "CountDeclMethodAll",
   "CountDeclMethodDefault", "CountDeclMethodPrivate", "CountDeclMethodProtected",
   "CountDeclMethodPublic", "CountLine", "CountLineBlank", "CountLineCode",
   "CountLineCodeDecl", "CountLineCodeExe", "CountLineComment", "CountLineInactive",
   "CountLinePreprocessor", "CountSemicolon", "CountStmt", "CountStmtDecl",
   "CountStmtExe", "MaxCyclomatic", "MaxCyclomaticModified", "MaxCyclomaticStrict",
   "RatioCommentToCode", "SumCyclomatic", "SumCyclomaticModified",
   "SumCyclomaticStrict", "SumEssential",
   "CountInput", "CountOutput", "CountPath", "MaxNesting", "CountPath"]

/-- The characters Python's `str.strip()` removes by default. -/
def isPySpace (c : Char) : Bool :=
  c == ' ' || c == '\t' || c == '\n' || c == '\r' || c == '\x0b' || c == '\x0c'

/-- Python `str.strip()`: drop leading and trailing whitespace. -/
def pyStrip (cs : List Char) : List Char :=
  ((cs.dropWhile isPySpace).reverse.dropWhile isPySpace).reverse

/-- Python `str.split(',')`: split at every comma, keeping empty fields;
the empty string yields `[""]`. -/
def pySplitComma : List Char → List (List Char)
  | [] => [[]]
  | c :: cs =>
    if c == ',' then [] :: pySplitComma cs
    else
      match pySplitComma cs with
      | t :: ts => (c :: t) :: ts
      | [] => [[c]]

/-- `line.strip().split(',')` for one line of the analyzer's CSV. -/
def splitFields (line : String) : List String :=
  (pySplitComma (pyStrip line.data)).map (fun cs => String.mk cs)

/-- A Python dict of strings, modelled as its key-insertion list; a later
binding of a key overwrites an earlier one (see `pyGet`). -/
abbrev MetricsRec := List (String × String)

/-- Python dict lookup on the insertion list: the value of the latest
binding of the key. -/
def pyGet (d : MetricsRec) (k : String) : Option String :=
  (d.reverse.find? (fun e => e.1 == k)).map (fun e => e.2)

/-- The dict `{'File': values[0], **{m: v for m, v in zip(self.metrics,
values[1:])}}` built by `get_metrics` for an accepted row. -/
def recOfValues (values : List String) : MetricsRec :=
  ("File", values.headD "") :: METRICS.zip (values.drop 1)

/-- One iteration of the row loop in `get_metrics`: `continue` on a first
field other than `File`, `continue` on a field count other than
`len(self.metrics) + 1`, otherwise build the record. -/
def parseRow (line : String) : Option MetricsRec :=
  let values := splitFields line
  if values.headD "" == "File" then
    if values.length == METRICS.length + 1 then some (recOfValues values)
    else none
  else none

/-- The row loop of `get_metrics` with its `is_header` flag: the first
line is dropped, every later line goes through `parseRow`. -/
def parseLinesFrom : Bool → List String → List MetricsRec
  | _, [] => []
  | true, _ :: rest => parseLinesFrom false rest
  | false, line :: rest =>
    match parseRow line with
    | some r => r :: parseLinesFrom false rest
    | none => parseLinesFrom false rest

/-- Parsing of a whole analyzer CSV file (the loop entered with
`is_header = True`). -/
def parseMetricsFile (lines : List String) : List MetricsRec :=
  parseLinesFrom true lines

example : METRICS.length = 43 := by decide

example : splitFields ("  File,1,2  ") = ["File", "1", "2"] := by decide

example : parseRow ("File,1,2") = none := by decide

/-! ## The metrics pipeline as a state machine

State outside the Python process: the `data/` directory (per-version CSV
artifacts and analyzer databases) and the git working tree (which commit
or branch is checked out).  The external tools are an environment:
`createOk commit` tells whether the `und create` / `und add` /
`und analyze` invocations of `create_understand_db` all exit zero for
that commit, `metricsOk db` whether the `und metrics` invocation of
`get_metrics` exits zero for that database, and `metricsOut db` the CSV
lines a successful `und metrics` run leaves at the derived CSV path.
`interruptAt` injects a `KeyboardInterrupt` at the start of the given
iteration of the version loop (asynchronous interruption made explicit).
Every external invocation is recorded as an event.
-/

/-- On-disk and git state shared across versions. -/
structure FileSys where
  files : List (String × List String)
  dbs : List String
  worktree : String
deriving DecidableEq

/-- Content of a cached CSV artifact, if present. -/
def fsLookup (fs : FileSys) (p : String) : Option (List String) :=
  (fs.files.find? (fun e => e.1 == p)).map (fun e => e.2)

/-- `os.path.isfile` / `os.path.exists` for a CSV artifact. -/
def fsExists (fs : FileSys) (p : String) : Bool :=
  (fsLookup fs p).isSome

/-- Creation of a CSV artifact (the path was absent beforehand on every
path of the code that writes). -/
def fsWrite (fs : FileSys) (p : String) (content : List String) : FileSys :=
  { fs with files := (p, content) :: fs.files }

/-- Creation of an analyzer database directory. -/
def fsAddDb (fs : FileSys) (p : String) : FileSys :=
  { fs with dbs := p :: fs.dbs }

/-- `shutil.rmtree` of an analyzer database directory. -/
def fsRemoveDb (fs : FileSys) (p : String) : FileSys :=
  { fs with dbs := fs.dbs.filter (fun q => !(q == p)) }

/-- `self.repo.git.checkout(commit_id)` in `checkout_version`. -/
def checkoutFs (fs : FileSys) (commit : String) : FileSys :=
  { fs with worktree := commit }

/-- Observable behaviour of the external tools, plus the injected
interruption point. -/
structure AnalyzerEnv where
  createOk : String → Bool
  metricsOk : String → Bool
  metricsOut : String → List String
  interruptAt : Option Nat

/-- Events of one pipeline run, in order. -/
inductive REvent where
  | checkout (commit : String)
  | cacheCheck (csv : String) (hit : Bool)
  | undCreate (commit : String) (db : String)
  | undMetrics (db : String)
  | removeDb (db : String)
  | cleanRepo
deriving DecidableEq

/-- Exceptions that can escape `collect_all_metrics`. -/
inductive PyExc where
  | keyboardInterrupt
  | calledProcessError
deriving DecidableEq

/-- `str(version)` of a `packaging` version parsed from `X.Y.Z`. -/
def verString (v : SemVer) : String :=
  toString v.1 ++ "." ++ toString v.2.1 ++ "." ++ toString v.2.2

/-- `str(version).replace('.', '_')`. -/
def verUnders (v : SemVer) : String :=
  toString v.1 ++ "_" ++ toString v.2.1 ++ "_" ++ toString v.2.2

/-- `db_path = f"data/{TEMP_DB_PREFIX}{str(version).replace('.', '_')}.und"`. -/
def dbPath (v : SemVer) : String :=
  "data/understand_db_" ++ verUnders v ++ ".und"

/-- `csv_path = db_path.rsplit(".", 1)[0] + ".csv"`. -/
def csvPath (v : SemVer) : String :=
  "data/understand_db_" ++ verUnders v ++ ".csv"

/-- `fieldnames = ['Version', 'CommitId', 'File'] + self.metrics` in
`collect_all_metrics`. -/
def FIELDNAMES : List String :=
  ["Version", "CommitId", "File"] ++ METRICS

/-- `csv.DictWriter.writerow`: one output cell per field name, in field
order, looked up in the row dict (`restval` — here the empty cell — for
a missing key; every key of the dicts the pipeline builds is among the
field names, so `extrasaction='raise'` never fires). -/
def writeRowDict (d : MetricsRec) : List String :=
  FIELDNAMES.map (fun k => (pyGet d k).getD "")

/-- The row dict `{'Version': version, 'CommitId': commit_id, **metrics}`
written for one record, rendered by `writeRowDict`. -/
def rowOf (v : SemVer) (commit : String) (rec : MetricsRec) : List String :=
  writeRowDict (("Version", verString v) :: ("CommitId", commit) :: rec)

/-- `get_metrics(db_path, csv_path)`: if the CSV artifact is absent, run
`und metrics` (`check=True`); a `CalledProcessError` there is caught and
an empty record list returned; a successful run leaves the artifact,
which is then parsed.  Returns (state, events, records). -/
def get_metrics (env : AnalyzerEnv) (fs : FileSys) (db csv : String) :
    FileSys × List REvent × List MetricsRec :=
  if fsExists fs csv then
    (fs, [], parseMetricsFile ((fsLookup fs csv).getD []))
  else if env.metricsOk db then
    (fsWrite fs csv (env.metricsOut db),
     [REvent.undMetrics db],
     parseMetricsFile (env.metricsOut db))
  else
    (fs, [REvent.undMetrics db], [])

/-- `create_understand_db(commit_id, db_path)`: the `und create` /
`und add` / `und analyze` invocations (`check=True`); on a non-zero exit
the partial database is removed and the `CalledProcessError` re-raised —
the returned flag is false exactly when the caller sees the exception. -/
def create_understand_db (env : AnalyzerEnv) (fs : FileSys)
    (commit db : String) : FileSys × List REvent × Bool :=
  if env.createOk commit then
    (fsAddDb fs db, [REvent.undCreate commit db], true)
  else
    (fs, [REvent.undCreate commit db], false)

/-- Result of processing one version inside the loop of
`collect_all_metrics`. -/
structure StepOut where
  fs : FileSys
  events : List REvent
  rows : List (List String)
  ok : Bool
deriving DecidableEq

/-- Tail of one loop iteration after the database is ensured: collect the
records (`get_metrics`), render their rows, and remove the database
directory if present (`shutil.rmtree`). -/
def finishStep (env : AnalyzerEnv) (fs : FileSys) (v : SemVer)
    (commit : String) (evs : List REvent) : StepOut :=
  let g := get_metrics env fs (dbPath v) (csvPath v)
  let rows := g.2.2.map (fun rec => rowOf v commit rec)
  if g.1.dbs.contains (dbPath v) then
    { fs := fsRemoveDb g.1 (dbPath v),
      events := evs ++ g.2.1 ++ [REvent.removeDb (dbPath v)],
      rows := rows, ok := true }
  else
    { fs := g.1, events := evs ++ g.2.1, rows := rows, ok := true }

/-- One iteration of the version loop of `collect_all_metrics`:
`checkout_version(commit_id)` first (it only moves the working tree, so
the artifact lookup that follows reads the same `data/` directory); then
`if not os.path.isfile(csv_path): create_understand_db(...)`; then
`get_metrics`, row writing and database removal.  `ok = false` marks the
re-raised `CalledProcessError` of `create_understand_db`. -/
def stepVersion (env : AnalyzerEnv) (fs : FileSys) (v : SemVer)
    (commit : String) : StepOut :=
  if fsExists fs (csvPath v) then
    finishStep env (checkoutFs fs commit) v commit
      [REvent.checkout commit, REvent.cacheCheck (csvPath v) true]
  else
    let c := create_understand_db env (checkoutFs fs commit) commit (dbPath v)
    if c.2.2 then
      finishStep env c.1 v commit
        ([REvent.checkout commit, REvent.cacheCheck (csvPath v) false] ++ c.2.1)
    else
      { fs := c.1,
        events := [REvent.checkout commit, REvent.cacheCheck (csvPath v) false] ++ c.2.1,
        rows := [], ok := false }

/-- Outcome of the version loop / of `collect_all_metrics` / of `main`:
final state, event trace, data rows written to the output CSV (the
header row is tracked separately by `outputTable`), and the exception
escaping the scope, if any. -/
structure LoopOut where
  fs : FileSys
  events : List REvent
  rows : List (List String)
  exc : Option PyExc
deriving DecidableEq

/-- The `for version, commit_id in version_commits` loop, with the
iteration index threaded to place the injected `KeyboardInterrupt`.  A
`CalledProcessError` escaping `create_understand_db` aborts the loop at
the current version. -/
def runVersions (env : AnalyzerEnv) :
    FileSys → Nat → List (SemVer × String) → LoopOut
  | fs, _, [] => { fs := fs, events := [], rows := [], exc := none }
  | fs, idx, vc :: rest =>
    if env.interruptAt = some idx then
      { fs := fs, events := [], rows := [],
        exc := some PyExc.keyboardInterrupt }
    else
      let s := stepVersion env fs vc.1 vc.2
      if s.ok then
        let r := runVersions env s.fs (idx + 1) rest
        { fs := r.fs, events := s.events ++ r.events,
          rows := s.rows ++ r.rows, exc := r.exc }
      else
        { fs := s.fs, events := s.events, rows := s.rows,
          exc := some PyExc.calledProcessError }

/-- `clean_repo`: `git clean -fd` inside the repository clone (the
`data/` artifacts live outside it) and `git checkout master`; its own
git errors are caught and only logged. -/
def clean_repo (fs : FileSys) : FileSys :=
  { fs with worktree := "master" }

/-- `collect_all_metrics`: resolve nothing here (the resolved version
list is the argument), run the version loop, and in the `finally` block
run `clean_repo` unconditionally; any exception keeps propagating. -/
def collect_all_metrics (env : AnalyzerEnv) (fs : FileSys)
    (vcs : List (SemVer × String)) : LoopOut :=
  let r := runVersions env fs 0 vcs
  { fs := clean_repo r.fs, events := r.events ++ [REvent.cleanRepo],
    rows := r.rows, exc := r.exc }

/-- The output CSV: `writer.writeheader()` writes the field names before
the loop, then one line per record; rows written before an abort stay in
the file. -/
def outputTable (r : LoopOut) : List (List String) :=
  FIELDNAMES :: r.rows

/-- `main()`: run `collect_all_metrics`; a `KeyboardInterrupt` or any
other `Exception` is caught and answered with one more `clean_repo`
before `sys.exit(1)`.  (A fatal git failure inside `checkout_version`
calls `sys.exit(1)` directly, which is not an `Exception`; checkout is
modelled as succeeding.) -/
def mainRun (env : AnalyzerEnv) (fs : FileSys)
    (vcs : List (SemVer × String)) : LoopOut :=
  let r := collect_all_metrics env fs vcs
  match r.exc with
  | none => r
  | some PyExc.keyboardInterrupt =>
    { r with fs := clean_repo r.fs, events := r.events ++ [REvent.cleanRepo] }
  | some PyExc.calledProcessError =>
    { r with fs := clean_repo r.fs, events := r.events ++ [REvent.cleanRepo] }

/-- Analyzer subprocess invocations in a trace (`und create`/`add`/
`analyze` grouped as one create event, plus `und metrics`). -/
def analyzerCalls (evs : List REvent) : Nat :=
  evs.countP (fun e =>
    match e with
    | REvent.undCreate _ _ => true
    | REvent.undMetrics _ => true
    | _ => false)

example : dbPath (2, 0, 0) = "data/understand_db_2_0_0.und" := by decide

/-- The rows one version contributes when its artifact is read from a
given state. -/
def cachedRows (fs : FileSys) (vc : SemVer × String) : List (List String) :=
  (parseMetricsFile ((fsLookup fs (csvPath vc.1)).getD [])).map
    (fun rec => rowOf vc.1 vc.2 rec)

/-! ## The issue-key to commit matcher

`search_commit` (in `generate_jira_git.py`, and identically structured in
`main.py`) opens the repository, linearly scans `repo.iter_commits()` for
the first commit whose message contains the key as a substring, and
returns a dict with the key, the 7-character commit id and the
comma-joined changed file list; any exception during the lookup is caught
and, like the no-match case, falls through to the `N/A` sentinel dict.
`process_issues_batch` extracts the keys, cuts them into
`batch_size`-sized slices (`keys[i:i+batch_size]` for
`i in range(0, len(keys), batch_size)`), maps `search_commit` over each
slice via `pool.map` — which returns the batch's results in input
order — concatenates the batch results, and keys them by
`{result['key']: result for result in results}`.
-/

/-- One commit of the scanned history. -/
structure CommitInfo where
  message : String
  hexsha : String
  files : List String
deriving DecidableEq

/-- The dict returned by `search_commit`. -/
structure CommitMatch where
  key : String
  commit_id : String
  file_paths : String
deriving DecidableEq

/-- Python's `needle in haystack` on strings: prefix test. -/
def prefixOfChars : List Char → List Char → Bool
  | [], _ => true
  | _ :: _, [] => false
  | a :: as, b :: bs => a == b && prefixOfChars as bs

/-- Python's `needle in haystack` on strings: substring test at every
position. -/
def containsChars (needle : List Char) : List Char → Bool
  | [] => prefixOfChars needle []
  | c :: cs => prefixOfChars needle (c :: cs) || containsChars needle cs

/-- `jira_key in commit.message`. -/
def strHasSub (hay needle : String) : Bool :=
  containsChars needle.data hay.data

/-- The result a lookup for one key can observe: the commit list, or the
exception raised while opening or iterating the repository. -/
abbrev RepoScan := Except String (List CommitInfo)

/-- The `N/A` sentinel dict of `search_commit`. -/
def notFoundMatch (jira_key : String) : CommitMatch :=
  { key := jira_key, commit_id := "N/A", file_paths := "N/A" }

/-- `search_commit(jira_key, repo_path)`: first commit whose message
contains the key as a substring; the exception path and the no-match
path both reach the trailing sentinel return. -/
def search_commit (jira_key : String) (scan : RepoScan) : CommitMatch :=
  match scan with
  | Except.error _ => notFoundMatch jira_key
  | Except.ok commits =>
    match commits.find? (fun c => strHasSub c.message jira_key) with
    | some c =>
      { key := jira_key, commit_id := c.hexsha.take 7,
        file_paths := String.intercalate ", " c.files }
    | none => notFoundMatch jira_key

/-- A Jira issue as consumed by `process_issues_batch` (only its key is
read there). -/
structure Issue where
  key : String
deriving DecidableEq

/-- The slices `keys[i:i+bs]` for `i in range(0, len(keys), bs)`,
with the list length as structurally decreasing fuel (for `bs ≥ 1` each
slice consumes at least one element, so the fuel never runs out). -/
def slicesGo (bs : Nat) : Nat → List String → List (List String)
  | _, [] => []
  | 0, _ :: _ => []
  | fuel + 1, k :: ks => ((k :: ks).take bs) :: slicesGo bs fuel ((k :: ks).drop bs)

/-- Batching of the key list. -/
def slices (bs : Nat) (keys : List String) : List (List String) :=
  slicesGo bs keys.length keys

/-- Python dict insertion: a present key is overwritten in place, a new
key is appended. -/
def pyDictInsert (d : List (String × CommitMatch)) (k : String)
    (v : CommitMatch) : List (String × CommitMatch) :=
  if d.any (fun e => e.1 == k) then
    d.map (fun e => if e.1 == k then (k, v) else e)
  else
    d ++ [(k, v)]

/-- The dict comprehension `{result['key']: result for result in
results}`. -/
def pyDictOfResults (l : List CommitMatch) : List (String × CommitMatch) :=
  l.foldl (fun d r => pyDictInsert d r.key r) []

/-- `process_issues_batch(issues, repo_path, batch_size)`: keys are
extracted in issue order; each batch is mapped over `search_commit`
(`pool.map` keeps input order); batch results are concatenated in batch
order and keyed by the result's `key` field. -/
def process_issues_batch (issues : List Issue) (scan : RepoScan)
    (batch_size : Nat) : List (String × CommitMatch) :=
  pyDictOfResults
    ((slices batch_size (issues.map Issue.key)).flatMap
      (fun batch => batch.map (fun k => search_commit k scan)))

example :
    slices 2 ["a", "b", "c", "d", "e"] = [["a", "b"], ["c", "d"], ["e"]] := by
  decide

example :
    search_commit ("HIVE-1")
      (Except.ok [CommitInfo.mk ("fix HIVE-12 bug") ("abcdef012345")
        ["x.java", "y.java"]]) =
      CommitMatch.mk ("HIVE-1") ("abcdef0") ("x.java, y.java") := by
  decide

/-! ## Parsing lemmas -/

/-- Past the header line, the row loop is exactly a per-line filter: a
rejected line contributes nothing and parsing continues. -/
theorem parseLinesFrom_false_eq_filterMap (ls : List String) :
    parseLinesFrom false ls = ls.filterMap parseRow := by
  induction ls with
  | nil => rfl
  | cons l rest ih =>
    simp only [parseLinesFrom, List.filterMap_cons]
    cases parseRow l <;> simp [ih]

/-- A line whose field count is not `len(self.metrics) + 1` is rejected. -/
theorem parseRow_eq_none_of_bad_count (line : String)
    (h : (splitFields line).length ≠ METRICS.length + 1) :
    parseRow line = none := by
  have hbeq : ((splitFields line).length == METRICS.length + 1) = false := by
    simpa using h
  simp only [parseRow, hbeq]
  split <;> rfl

/-- C5: for every analyzer output file parsed by `get_metrics`, a row
whose field count differs from the number of declared metric names plus
one is discarded without aborting the parsing of the remaining rows; in
particular one header row, one malformed row and one well-formed row
yield exactly one record. -/
theorem get_metrics_drops_malformed_row_only
    (header bad good : String) (r : MetricsRec)
    (hbad : (splitFields bad).length ≠ METRICS.length + 1)
    (hgood : parseRow good = some r) :
    parseRow bad = none ∧
      parseMetricsFile [header, bad, good] = [r] ∧
      ∀ lines : List String,
        parseMetricsFile (header :: lines) = lines.filterMap parseRow := by
  have hb := parseRow_eq_none_of_bad_count bad hbad
  refine ⟨hb, ?_, ?_⟩
  · simp [parseMetricsFile, parseLinesFrom, hb, hgood]
  · intro lines
    rw [show parseMetricsFile (header :: lines) =
        parseLinesFrom false lines from rfl,
      parseLinesFrom_false_eq_filterMap]

/-- Witness for C5, at the scenario input: a malformed two-field row
between the header and a well-formed 44-field row. -/
theorem get_metrics_drops_malformed_row_only_witness :
    parseRow ("File,1") = none ∧
      parseMetricsFile
        ["Kind,Name",
         "File,1",
         "File,1,2,3,4,5,6,7,8,9,10,11,12,13,14,15,16,17,18,19,20,21,22,23,24,25,26,27,28,29,30,31,32,33,34,35,36,37,38,39,40,41,42,43"] =
        [recOfValues (splitFields ("File,1,2,3,4,5,6,7,8,9,10,11,12,13,14,15,16,17,18,19,20,21,22,23,24,25,26,27,28,29,30,31,32,33,34,35,36,37,38,39,40,41,42,43"))] := by
  have h :=
    get_metrics_drops_malformed_row_only ("Kind,Name") ("File,1")
      ("File,1,2,3,4,5,6,7,8,9,10,11,12,13,14,15,16,17,18,19,20,21,22,23,24,25,26,27,28,29,30,31,32,33,34,35,36,37,38,39,40,41,42,43")
      (recOfValues (splitFields ("File,1,2,3,4,5,6,7,8,9,10,11,12,13,14,15,16,17,18,19,20,21,22,23,24,25,26,27,28,29,30,31,32,33,34,35,36,37,38,39,40,41,42,43")))
      (by decide) (by decide)
  exact ⟨h.1, h.2.1⟩

/-- C9: a parsed row produces a record only if its first field is the
literal `File`; any other first field is silently discarded even when
the field count is right. -/
theorem parseRow_none_of_first_field_not_File (line : String)
    (h : (splitFields line).headD "" ≠ "File") :
    parseRow line = none := by
  have hbeq : ((splitFields line).headD "" == "File") = false := by
    simpa using h
  simp only [parseRow, hbeq]
  simp

/-- Witness for C9: a 44-field row (the accepted field count) whose
first field is `Kind` is still discarded. -/
theorem parseRow_none_of_first_field_not_File_witness :
    (splitFields ("Kind,1,2,3,4,5,6,7,8,9,10,11,12,13,14,15,16,17,18,19,20,21,22,23,24,25,26,27,28,29,30,31,32,33,34,35,36,37,38,39,40,41,42,43")).length =
        METRICS.length + 1 ∧
      parseRow ("Kind,1,2,3,4,5,6,7,8,9,10,11,12,13,14,15,16,17,18,19,20,21,22,23,24,25,26,27,28,29,30,31,32,33,34,35,36,37,38,39,40,41,42,43") = none :=
  ⟨by decide,
    parseRow_none_of_first_field_not_File
      ("Kind,1,2,3,4,5,6,7,8,9,10,11,12,13,14,15,16,17,18,19,20,21,22,23,24,25,26,27,28,29,30,31,32,33,34,35,36,37,38,39,40,41,42,43")
      (by decide)⟩

/-! ## Commit matcher theorems -/

/-- C7: `search_commit` never raises: with no substring match in the
scanned history it returns the `N/A` sentinel, and an exception during
the lookup is caught and converted into the same sentinel. -/
theorem search_commit_returns_sentinel (key e : String)
    (cs : List CommitInfo)
    (h : ∀ c ∈ cs, strHasSub c.message key = false) :
    search_commit key (Except.error e) = notFoundMatch key ∧
      search_commit key (Except.ok cs) = notFoundMatch key := by
  constructor
  · rfl
  · have hfind : cs.find? (fun c => strHasSub c.message key) = none := by
      rw [List.find?_eq_none]
      intro c hc
      simp [h c hc]
    simp [search_commit, hfind]

/-- Witness for C7: a failing lookup and a history without the key. -/
theorem search_commit_returns_sentinel_witness :
    search_commit ("HIVE-99") (Except.error ("bad object HEAD")) =
        notFoundMatch ("HIVE-99") ∧
      search_commit ("HIVE-99")
        (Except.ok [CommitInfo.mk ("unrelated work") ("0123456789abcdef") ["a.java"]]) =
        notFoundMatch ("HIVE-99") :=
  search_commit_returns_sentinel ("HIVE-99") ("bad object HEAD")
    [CommitInfo.mk ("unrelated work") ("0123456789abcdef") ["a.java"]]
    (by decide)

/-! ## Version-resolver theorems -/

/-- `verLe` in arithmetic form. -/
theorem verLe_iff (a b : SemVer) :
    verLe a b = true ↔
      a.1 < b.1 ∨ (a.1 = b.1 ∧
        (a.2.1 < b.2.1 ∨ (a.2.1 = b.2.1 ∧ a.2.2 ≤ b.2.2))) := by
  simp [verLe, Nat.blt_eq, Nat.ble_eq, Nat.beq_eq_true_eq]

/-- `verLt` in arithmetic form. -/
theorem verLt_iff (a b : SemVer) :
    verLt a b = true ↔
      a.1 < b.1 ∨ (a.1 = b.1 ∧
        (a.2.1 < b.2.1 ∨ (a.2.1 = b.2.1 ∧ a.2.2 < b.2.2))) := by
  simp [verLt, Nat.blt_eq, Nat.ble_eq, Nat.beq_eq_true_eq]

/-- The numeric version order is total. -/
theorem verLe_total (a b : SemVer) : verLe a b = true ∨ verLe b a = true := by
  rw [verLe_iff, verLe_iff]
  omega

/-- The numeric version order is transitive. -/
theorem verLe_trans {a b c : SemVer} (hab : verLe a b = true)
    (hbc : verLe b c = true) : verLe a c = true := by
  rw [verLe_iff] at hab hbc ⊢
  omega

/-- Weak order plus distinctness gives the strict order. -/
theorem verLt_of_verLe_ne {a b : SemVer} (hle : verLe a b = true)
    (hne : a ≠ b) : verLt a b = true := by
  obtain ⟨a1, a2, a3⟩ := a
  obtain ⟨b1, b2, b3⟩ := b
  rw [verLe_iff] at hle
  rw [verLt_iff]
  dsimp only at hle ⊢
  have hne2 : ¬(a1 = b1 ∧ a2 = b2 ∧ a3 = b3) := by
    intro h
    rcases h with ⟨h1, h2, h3⟩
    subst h1
    subst h2
    subst h3
    exact hne rfl
  omega

/-- The projection of the matching pairs to their versions. -/
theorem map_fst_filterMap_tagPair (tags : List RepoTag) :
    (tags.filterMap tagPair).map Prod.fst =
      tags.filterMap (fun t => matchVersionTag t.1) := by
  rw [List.map_filterMap]
  congr 1
  funext t
  simp only [tagPair, Option.map_map]
  cases matchVersionTag t.1 <;> rfl

/-- C4 counterexample: two distinct tags — `release-2.0.0` and
`rel/release-2.0.0` — both match the pattern and resolve to version
2.0.0, so the returned list is not sorted strictly ascending. -/
theorem get_version_commits_not_strictly_sorted :
    (get_version_commits [("release-2.0.0", "c1"), ("rel/release-2.0.0", "c2")] =
        [((2, 0, 0), "c1"), ((2, 0, 0), "c2")]) ∧
      ¬ List.Pairwise (fun a b : SemVer × String => verLt a.1 b.1 = true)
        (get_version_commits
          [("release-2.0.0", "c1"), ("rel/release-2.0.0", "c2")]) := by
  constructor
  · decide
  · decide

/-- C4 (amended): `get_version_commits` returns exactly one pair per tag
whose name matches the release pattern (the output is a permutation of
the per-matching-tag pairs, so non-matching tags never appear), sorted
ascending by numeric (major, minor, patch) comparison; the order is
strictly ascending whenever the matching tags' versions are pairwise
distinct. -/
theorem get_version_commits_sorted (tags : List RepoTag) :
    (get_version_commits tags).Perm (tags.filterMap tagPair) ∧
      List.Pairwise (fun a b : SemVer × String => verLe a.1 b.1 = true)
        (get_version_commits tags) ∧
      ((tags.filterMap (fun t => matchVersionTag t.1)).Nodup →
        List.Pairwise (fun a b : SemVer × String => verLt a.1 b.1 = true)
          (get_version_commits tags)) := by
  have hperm := List.perm_insertionSort
    (fun a b : SemVer × String => verLe a.1 b.1 = true) (tags.filterMap tagPair)
  have hsorted : List.Pairwise (fun a b : SemVer × String => verLe a.1 b.1 = true)
      (get_version_commits tags) := by
    haveI : IsTotal (SemVer × String) (fun a b => verLe a.1 b.1 = true) :=
      ⟨fun a b => verLe_total a.1 b.1⟩
    haveI : IsTrans (SemVer × String) (fun a b => verLe a.1 b.1 = true) :=
      ⟨fun _ _ _ hab hbc => verLe_trans hab hbc⟩
    exact List.sorted_insertionSort
      (fun a b : SemVer × String => verLe a.1 b.1 = true) (tags.filterMap tagPair)
  refine ⟨hperm, hsorted, fun hnd => ?_⟩
  have hmapperm :
      ((get_version_commits tags).map Prod.fst).Perm
        (tags.filterMap (fun t => matchVersionTag t.1)) := by
    rw [← map_fst_filterMap_tagPair]
    exact hperm.map Prod.fst
  have hnodup : ((get_version_commits tags).map Prod.fst).Nodup :=
    (hmapperm.symm).nodup hnd
  have hpairne : List.Pairwise (fun a b : SemVer × String => a.1 ≠ b.1)
      (get_version_commits tags) := List.pairwise_map.mp hnodup
  exact (hsorted.and hpairne).imp (fun h => verLt_of_verLe_ne h.1 h.2)

/-- Witness for C4 (amended), at the spec's scenario tag list — distinct
versions, so the result is strictly ascending. -/
theorem get_version_commits_sorted_witness :
    List.Pairwise (fun a b : SemVer × String => verLt a.1 b.1 = true)
      (get_version_commits
        [("release-2.0.0", "a"), ("rc-nightly", "b"),
         ("release-3.1.0", "c"), ("release-2.10.0", "d")]) :=
  (get_version_commits_sorted
    [("release-2.0.0", "a"), ("rc-nightly", "b"),
     ("release-3.1.0", "c"), ("release-2.10.0", "d")]).2.2 (by decide)

/-! ## Batch-driver theorems -/

/-- Concatenating the slices gives back the key list (the fuel is
sufficient whenever `batch_size ≥ 1`). -/
theorem slicesGo_flatten (bs : Nat) (hbs : 0 < bs) :
    ∀ (fuel : Nat) (keys : List String), keys.length ≤ fuel →
      (slicesGo bs fuel keys).flatten = keys := by
  intro fuel
  induction fuel with
  | zero =>
    intro keys hlen
    cases keys with
    | nil => rfl
    | cons k ks => simp at hlen
  | succ n ih =>
    intro keys hlen
    cases keys with
    | nil => rfl
    | cons k ks =>
      simp only [slicesGo, List.flatten_cons]
      rw [ih ((k :: ks).drop bs) ?_, List.take_append_drop]
      have : (k :: ks).length ≤ n + 1 := hlen
      simp only [List.length_drop]
      simp only [List.length_cons] at this
      omega

/-- Concatenating the slices gives back the key list. -/
theorem slices_flatten (bs : Nat) (hbs : 0 < bs) (keys : List String) :
    (slices bs keys).flatten = keys :=
  slicesGo_flatten bs hbs keys.length keys (Nat.le_refl _)

/-- Every result dict of `search_commit` carries the key it was asked
about. -/
theorem search_commit_key (k : String) (scan : RepoScan) :
    (search_commit k scan).key = k := by
  unfold search_commit
  cases scan with
  | error e => rfl
  | ok cs =>
    cases h : cs.find? (fun c => strHasSub c.message k) with
    | none => simp [h, notFoundMatch]
    | some c => simp [h]

/-- Folding fresh-keyed results into a Python dict appends them in
order. -/
theorem pyDictOfResults_fold_eq (l : List CommitMatch) :
    ∀ d : List (String × CommitMatch),
      (∀ r ∈ l, ∀ e ∈ d, e.1 ≠ r.key) →
      (l.map CommitMatch.key).Nodup →
      l.foldl (fun d r => pyDictInsert d r.key r) d =
        d ++ l.map (fun r => (r.key, r)) := by
  induction l with
  | nil =>
    intro d _ _
    simp
  | cons r rs ih =>
    intro d hfresh hnd
    have hany : (d.any (fun e => e.1 == r.key)) = false := by
      rw [List.any_eq_false]
      intro e he
      simpa using hfresh r (List.mem_cons_self r rs) e he
    have hins : pyDictInsert d r.key r = d ++ [(r.key, r)] := by
      simp [pyDictInsert, hany]
    simp only [List.foldl_cons, hins]
    rw [ih (d ++ [(r.key, r)]) ?_ ?_]
    · simp
    · intro r2 hr2 e he
      rcases List.mem_append.mp he with hed | hes
      · exact hfresh r2 (List.mem_cons_of_mem r hr2) e hed
      · have he2 : e = (r.key, r) := by simpa using hes
        subst he2
        have : r.key ∉ rs.map CommitMatch.key := by
          simp only [List.map_cons, List.nodup_cons] at hnd
          exact hnd.1
        intro hkey
        apply this
        have hk2 : r.key = r2.key := hkey
        rw [hk2]
        exact List.mem_map_of_mem CommitMatch.key hr2
    · simp only [List.map_cons, List.nodup_cons] at hnd
      exact hnd.2

/-- C8: for pairwise-distinct issue keys, the mapping returned by
`process_issues_batch` has exactly the input keys as keys, in input
order, each exactly once — for every positive batch size (batch
completion order is immaterial: `pool.map` returns each batch in input
order and the final mapping is keyed by the result's own key field). -/
theorem process_issues_batch_keys_exactly_once (issues : List Issue)
    (scan : RepoScan) (bs : Nat) (hbs : 0 < bs)
    (hnd : (issues.map Issue.key).Nodup) :
    (process_issues_batch issues scan bs).map Prod.fst =
        issues.map Issue.key ∧
      ∀ k ∈ issues.map Issue.key,
        ((process_issues_batch issues scan bs).map Prod.fst).count k = 1 := by
  have hflat :
      (slices bs (issues.map Issue.key)).flatMap
          (fun batch => batch.map (fun k => search_commit k scan)) =
        (issues.map Issue.key).map (fun k => search_commit k scan) := by
    have hgen : ∀ l : List (List String),
        l.flatMap (fun batch => batch.map (fun k => search_commit k scan)) =
          l.flatten.map (fun k => search_commit k scan) := by
      intro l
      induction l with
      | nil => rfl
      | cons b l2 ih => simp [ih]
    rw [hgen, slices_flatten bs hbs]
  have hreskeys :
      ((issues.map Issue.key).map (fun k => search_commit k scan)).map
          CommitMatch.key = issues.map Issue.key := by
    rw [List.map_map]
    have : ∀ k ∈ issues.map Issue.key,
        (CommitMatch.key ∘ fun k => search_commit k scan) k = id k := by
      intro k _
      simpa using search_commit_key k scan
    rw [List.map_congr_left this, List.map_id]
  have hdict :
      process_issues_batch issues scan bs =
        ((issues.map Issue.key).map (fun k => search_commit k scan)).map
          (fun r => (r.key, r)) := by
    unfold process_issues_batch pyDictOfResults
    rw [hflat]
    have := pyDictOfResults_fold_eq
      ((issues.map Issue.key).map (fun k => search_commit k scan)) []
      (by intro r _ e he; simp at he) (by rw [hreskeys]; exact hnd)
    rw [this]
    simp
  have hkeys : (process_issues_batch issues scan bs).map Prod.fst =
      issues.map Issue.key := by
    rw [hdict, List.map_map]
    have : ∀ r ∈ (issues.map Issue.key).map (fun k => search_commit k scan),
        (Prod.fst ∘ fun r : CommitMatch => (r.key, r)) r = CommitMatch.key r := by
      intro r _
      rfl
    rw [List.map_congr_left this, hreskeys]
  refine ⟨hkeys, fun k hk => ?_⟩
  rw [hkeys]
  exact List.count_eq_one_of_mem hnd hk

/-- Witness for C8, at the spec's scenario: 20 distinct keys, batch size
5 — every key appears exactly once, in order. -/
theorem process_issues_batch_keys_exactly_once_witness :
    (process_issues_batch
        [Issue.mk ("K01"), Issue.mk ("K02"), Issue.mk ("K03"), Issue.mk ("K04"),
         Issue.mk ("K05"), Issue.mk ("K06"), Issue.mk ("K07"), Issue.mk ("K08"),
         Issue.mk ("K09"), Issue.mk ("K10"), Issue.mk ("K11"), Issue.mk ("K12"),
         Issue.mk ("K13"), Issue.mk ("K14"), Issue.mk ("K15"), Issue.mk ("K16"),
         Issue.mk ("K17"), Issue.mk ("K18"), Issue.mk ("K19"), Issue.mk ("K20")]
        (Except.ok []) 5).map Prod.fst =
      ["K01", "K02", "K03", "K04", "K05", "K06", "K07", "K08", "K09", "K10",
       "K11", "K12", "K13", "K14", "K15", "K16", "K17", "K18", "K19", "K20"] :=
  (process_issues_batch_keys_exactly_once
    [Issue.mk ("K01"), Issue.mk ("K02"), Issue.mk ("K03"), Issue.mk ("K04"),
     Issue.mk ("K05"), Issue.mk ("K06"), Issue.mk ("K07"), Issue.mk ("K08"),
     Issue.mk ("K09"), Issue.mk ("K10"), Issue.mk ("K11"), Issue.mk ("K12"),
     Issue.mk ("K13"), Issue.mk ("K14"), Issue.mk ("K15"), Issue.mk ("K16"),
     Issue.mk ("K17"), Issue.mk ("K18"), Issue.mk ("K19"), Issue.mk ("K20")]
    (Except.ok []) 5 (by decide) (by decide)).1

/-! ## Pipeline state lemmas -/

/-- Checking out a commit does not touch the `data/` artifacts. -/
theorem fsExists_checkoutFs (fs : FileSys) (c p : String) :
    fsExists (checkoutFs fs c) p = fsExists fs p := rfl

/-- Checking out a commit does not touch the `data/` artifacts. -/
theorem fsLookup_checkoutFs (fs : FileSys) (c p : String) :
    fsLookup (checkoutFs fs c) p = fsLookup fs p := rfl

/-- Artifact lookup only depends on the artifact map. -/
theorem fsLookup_congr {fs fs2 : FileSys} (p : String)
    (h : fs.files = fs2.files) : fsLookup fs p = fsLookup fs2 p := by
  unfold fsLookup
  rw [h]

/-- Artifact existence only depends on the artifact map. -/
theorem fsExists_congr {fs fs2 : FileSys} (p : String)
    (h : fs.files = fs2.files) : fsExists fs p = fsExists fs2 p := by
  unfold fsExists
  rw [fsLookup_congr p h]

/-- A fresh write is immediately readable. -/
theorem fsLookup_fsWrite_same (fs : FileSys) (p : String)
    (content : List String) : fsLookup (fsWrite fs p content) p = some content := by
  unfold fsLookup fsWrite
  simp [List.find?]

/-- Writing a previously-absent path preserves every present artifact. -/
theorem fsLookup_fsWrite_preserve {fs : FileSys} {q : String}
    {c : List String} (p : String) (content : List String)
    (habsent : fsExists fs p = false) (h : fsLookup fs q = some c) :
    fsLookup (fsWrite fs p content) q = some c := by
  by_cases hpq : p = q
  · subst hpq
    unfold fsExists at habsent
    rw [h] at habsent
    simp at habsent
  · have hbeq : (p == q) = false := by
      simpa using hpq
    unfold fsLookup fsWrite
    unfold fsLookup at h
    simp only [List.find?, hbeq]
    exact h

/-- `cachedRows` only depends on the artifact map. -/
theorem cachedRows_congr {fs fs2 : FileSys} (vc : SemVer × String)
    (h : fs.files = fs2.files) : cachedRows fs vc = cachedRows fs2 vc := by
  unfold cachedRows
  rw [fsLookup_congr (csvPath vc.1) h]

/-- A cache hit: the step succeeds, contributes the artifact's rows,
leaves the artifact map unchanged and invokes no analyzer subprocess. -/
theorem stepVersion_cache_hit (env : AnalyzerEnv) (fs : FileSys) (v : SemVer)
    (commit : String) (h : fsExists fs (csvPath v) = true) :
    (stepVersion env fs v commit).ok = true ∧
      (stepVersion env fs v commit).rows = cachedRows fs (v, commit) ∧
      (stepVersion env fs v commit).fs.files = fs.files ∧
      analyzerCalls (stepVersion env fs v commit).events = 0 := by
  unfold stepVersion finishStep get_metrics cachedRows
  simp only [fsExists_checkoutFs, fsLookup_checkoutFs, h, if_true]
  split <;>
    simp [analyzerCalls, fsRemoveDb, checkoutFs, List.countP_append,
      List.countP_cons]

/-- A cache miss with a succeeding analyzer: the step succeeds, writes
the artifact, and contributes the rows parsed from the analyzer's
output. -/
theorem stepVersion_miss_ok (env : AnalyzerEnv) (fs : FileSys) (v : SemVer)
    (commit : String) (h : fsExists fs (csvPath v) = false)
    (hc : env.createOk commit = true)
    (hm : env.metricsOk (dbPath v) = true) :
    (stepVersion env fs v commit).ok = true ∧
      (stepVersion env fs v commit).rows =
        (parseMetricsFile (env.metricsOut (dbPath v))).map
          (fun rec => rowOf v commit rec) ∧
      (stepVersion env fs v commit).fs.files =
        (csvPath v, env.metricsOut (dbPath v)) :: fs.files := by
  unfold stepVersion finishStep get_metrics create_understand_db
  simp only [fsExists_checkoutFs, h, hc, hm, Bool.false_eq_true, if_false,
    if_true, fsAddDb, checkoutFs]
  have hexists2 : fsExists
      (FileSys.mk fs.files (dbPath v :: fs.dbs) commit) (csvPath v) = false := h
  simp only [hexists2, Bool.false_eq_true, if_false, if_true]
  have hcontains : ((fsWrite
      (FileSys.mk fs.files (dbPath v :: fs.dbs) commit) (csvPath v)
      (env.metricsOut (dbPath v))).dbs).contains (dbPath v) = true := by
    simp [fsWrite]
  simp [hcontains, fsRemoveDb, fsWrite]

/-- A cache miss with a failing `create_understand_db`: the step aborts
with no rows. -/
theorem stepVersion_miss_fail (env : AnalyzerEnv) (fs : FileSys) (v : SemVer)
    (commit : String) (h : fsExists fs (csvPath v) = false)
    (hc : env.createOk commit = false) :
    stepVersion env fs v commit =
      { fs := checkoutFs fs commit,
        events := [REvent.checkout commit, REvent.cacheCheck (csvPath v) false,
          REvent.undCreate commit (dbPath v)],
        rows := [], ok := false } := by
  unfold stepVersion create_understand_db
  simp only [fsExists_checkoutFs, h, hc, Bool.false_eq_true, if_false]
  rfl

/-- A cache miss where `und metrics` exits non-zero: the error is caught
inside `get_metrics`, the step still succeeds, contributes no rows, and
leaves no artifact behind. -/
theorem stepVersion_miss_nometrics (env : AnalyzerEnv) (fs : FileSys)
    (v : SemVer) (commit : String) (h : fsExists fs (csvPath v) = false)
    (hc : env.createOk commit = true)
    (hm : env.metricsOk (dbPath v) = false) :
    (stepVersion env fs v commit).ok = true ∧
      (stepVersion env fs v commit).rows = [] ∧
      (stepVersion env fs v commit).fs.files = fs.files := by
  unfold stepVersion finishStep get_metrics create_understand_db
  simp only [fsExists_checkoutFs, h, hc, hm, Bool.false_eq_true, if_false,
    if_true, fsAddDb, checkoutFs]
  have hexists2 : fsExists
      (FileSys.mk fs.files (dbPath v :: fs.dbs) commit) (csvPath v) = false := h
  simp only [hexists2, Bool.false_eq_true, if_false]
  have hcontains :
      ((FileSys.mk fs.files (dbPath v :: fs.dbs) commit).dbs).contains
        (dbPath v) = true := by simp
  simp [hcontains, fsRemoveDb]

/-- `finishStep` always reports success and only extends the given event
prefix with metric-export and cleanup events. -/
theorem finishStep_events (env : AnalyzerEnv) (fs : FileSys) (v : SemVer)
    (commit : String) (evs : List REvent) :
    (finishStep env fs v commit evs).ok = true ∧
      ∃ tail, (finishStep env fs v commit evs).events = evs ++ tail ∧
        REvent.cleanRepo ∉ tail ∧
        REvent.checkout commit ∉ tail := by
  have hg : (get_metrics env fs (dbPath v) (csvPath v)).2.1 = [] ∨
      (get_metrics env fs (dbPath v) (csvPath v)).2.1 =
        [REvent.undMetrics (dbPath v)] := by
    unfold get_metrics
    split
    · left
      rfl
    · split
      · right
        rfl
      · right
        rfl
  unfold finishStep
  dsimp only
  rcases hg with hg | hg <;> rw [hg] <;> split
  · exact ⟨rfl, [REvent.removeDb (dbPath v)], by simp, by simp, by simp⟩
  · exact ⟨rfl, [], by simp, by simp, by simp⟩
  · exact ⟨rfl, [REvent.undMetrics (dbPath v), REvent.removeDb (dbPath v)],
      by simp, by simp, by simp⟩
  · exact ⟨rfl, [REvent.undMetrics (dbPath v)], by simp, by simp, by simp⟩

/-- Every loop iteration starts by checking out the version's commit and
then consulting the artifact cache; the remaining events are analyzer,
export and cleanup events. -/
theorem stepVersion_events_shape (env : AnalyzerEnv) (fs : FileSys)
    (v : SemVer) (commit : String) :
    ∃ tail, (stepVersion env fs v commit).events =
        REvent.checkout commit ::
          REvent.cacheCheck (csvPath v) (fsExists fs (csvPath v)) :: tail ∧
      REvent.cleanRepo ∉ tail := by
  by_cases hex : fsExists fs (csvPath v) = true
  · unfold stepVersion
    simp only [fsExists_checkoutFs, hex, if_true]
    obtain ⟨-, tail, hev, hclean, -⟩ :=
      finishStep_events env (checkoutFs fs commit) v commit
        [REvent.checkout commit, REvent.cacheCheck (csvPath v) true]
    refine ⟨tail, ?_, hclean⟩
    rw [hev]
    simp
  · have hex2 : fsExists fs (csvPath v) = false := by
      simpa using hex
    by_cases hc : env.createOk commit = true
    · unfold stepVersion create_understand_db
      simp only [fsExists_checkoutFs, hex2, hc, Bool.false_eq_true, if_false,
        if_true]
      obtain ⟨-, tail, hev, hclean, -⟩ :=
        finishStep_events env (fsAddDb (checkoutFs fs commit) (dbPath v)) v
          commit
          ([REvent.checkout commit, REvent.cacheCheck (csvPath v) false] ++
            [REvent.undCreate commit (dbPath v)])
      refine ⟨REvent.undCreate commit (dbPath v) :: tail, ?_, ?_⟩
      · rw [hev]
        simp
      · simp
        simpa using hclean
    · have hc2 : env.createOk commit = false := by
        simpa using hc
      rw [stepVersion_miss_fail env fs v commit hex2 hc2]
      refine ⟨[REvent.undCreate commit (dbPath v)], ?_, ?_⟩
      · rw [hex2]
      · simp

/-- Unfolding an artifact lookup through a known artifact map. -/
theorem fsLookup_eq_of_files {fs : FileSys} {l : List (String × List String)}
    (h : fs.files = l) (p : String) :
    fsLookup fs p = (l.find? (fun e => e.1 == p)).map (fun e => e.2) := by
  unfold fsLookup
  rw [h]

/-- The only failing outcome of a loop iteration is a cache miss whose
`create_understand_db` subprocesses exit non-zero. -/
theorem stepVersion_ok_false (env : AnalyzerEnv) (fs : FileSys) (v : SemVer)
    (commit : String) (h : (stepVersion env fs v commit).ok = false) :
    fsExists fs (csvPath v) = false ∧ env.createOk commit = false := by
  by_cases hex : fsExists fs (csvPath v) = true
  · have := (stepVersion_cache_hit env fs v commit hex).1
    rw [this] at h
    simp at h
  · have hex2 : fsExists fs (csvPath v) = false := by simpa using hex
    by_cases hc : env.createOk commit = true
    · by_cases hm : env.metricsOk (dbPath v) = true
      · have := (stepVersion_miss_ok env fs v commit hex2 hc hm).1
        rw [this] at h
        simp at h
      · have hm2 : env.metricsOk (dbPath v) = false := by simpa using hm
        have := (stepVersion_miss_nometrics env fs v commit hex2 hc hm2).1
        rw [this] at h
        simp at h
    · exact ⟨hex2, by simpa using hc⟩

/-- A loop iteration never deletes or overwrites an existing artifact. -/
theorem stepVersion_preserves_file (env : AnalyzerEnv) (fs : FileSys)
    (v : SemVer) (commit p : String) {c : List String}
    (h : fsLookup fs p = some c) :
    fsLookup (stepVersion env fs v commit).fs p = some c := by
  by_cases hex : fsExists fs (csvPath v) = true
  · have hf := (stepVersion_cache_hit env fs v commit hex).2.2.1
    rw [fsLookup_congr p hf]
    exact h
  · have hex2 : fsExists fs (csvPath v) = false := by simpa using hex
    by_cases hc : env.createOk commit = true
    · by_cases hm : env.metricsOk (dbPath v) = true
      · have hf := (stepVersion_miss_ok env fs v commit hex2 hc hm).2.2
        have hne : (csvPath v == p) = false := by
          have : csvPath v ≠ p := by
            intro heq
            rw [heq] at hex2
            unfold fsExists at hex2
            rw [h] at hex2
            simp at hex2
          simpa using this
        rw [fsLookup_eq_of_files hf p]
        simp only [List.find?, hne]
        unfold fsLookup at h
        exact h
      · have hm2 : env.metricsOk (dbPath v) = false := by simpa using hm
        have hf := (stepVersion_miss_nometrics env fs v commit hex2 hc hm2).2.2
        rw [fsLookup_congr p hf]
        exact h
    · have hc2 : env.createOk commit = false := by simpa using hc
      rw [stepVersion_miss_fail env fs v commit hex2 hc2]
      exact h

/-- The version loop never deletes or overwrites an existing artifact. -/
theorem runVersions_preserves_file (env : AnalyzerEnv) :
    ∀ (vcs : List (SemVer × String)) (fs : FileSys) (idx : Nat) (p : String)
      {c : List String}, fsLookup fs p = some c →
      fsLookup (runVersions env fs idx vcs).fs p = some c := by
  intro vcs
  induction vcs with
  | nil =>
    intro fs idx p c h
    exact h
  | cons vc rest ih =>
    intro fs idx p c h
    unfold runVersions
    dsimp only
    by_cases hint : env.interruptAt = some idx
    · simp only [hint, if_true]
      exact h
    · simp only [hint, if_false]
      by_cases hok : (stepVersion env fs vc.1 vc.2).ok = true
      · simp only [hok, if_true]
        exact ih _ _ p (stepVersion_preserves_file env fs vc.1 vc.2 p h)
      · simp only [hok, if_false]
        exact stepVersion_preserves_file env fs vc.1 vc.2 p h

/-- A loop iteration never runs `clean_repo`. -/
theorem stepVersion_count_clean (env : AnalyzerEnv) (fs : FileSys)
    (v : SemVer) (commit : String) :
    (stepVersion env fs v commit).events.count REvent.cleanRepo = 0 := by
  obtain ⟨tail, hev, hclean⟩ := stepVersion_events_shape env fs v commit
  rw [hev]
  have htail : tail.count REvent.cleanRepo = 0 := List.count_eq_zero.mpr hclean
  simp [List.count_cons, htail]

/-- The version loop never runs `clean_repo`. -/
theorem runVersions_count_clean (env : AnalyzerEnv) :
    ∀ (vcs : List (SemVer × String)) (fs : FileSys) (idx : Nat),
      (runVersions env fs idx vcs).events.count REvent.cleanRepo = 0 := by
  intro vcs
  induction vcs with
  | nil =>
    intro fs idx
    rfl
  | cons vc rest ih =>
    intro fs idx
    unfold runVersions
    dsimp only
    by_cases hint : env.interruptAt = some idx
    · simp [hint]
    · simp only [hint, if_false]
      by_cases hok : (stepVersion env fs vc.1 vc.2).ok = true
      · simp only [hok, if_true]
        simp [List.count_append, stepVersion_count_clean, ih]
      · simp only [hok, if_false]
        exact stepVersion_count_clean env fs vc.1 vc.2

/-- `collect_all_metrics` runs `clean_repo` exactly once, in its
`finally` block. -/
theorem collect_count_clean (env : AnalyzerEnv) (fs : FileSys)
    (vcs : List (SemVer × String)) :
    (collect_all_metrics env fs vcs).events.count REvent.cleanRepo = 1 := by
  unfold collect_all_metrics
  dsimp only
  simp [List.count_append, runVersions_count_clean]

/-- C2 (amended): `clean_repo` runs at least once on every exit path of
the pipeline, but not always exactly once per invocation: on normal
completion of `collect_all_metrics` the `finally` block runs it exactly
once, while a `KeyboardInterrupt` or any other exception escaping
`collect_all_metrics` makes it run twice — once in the `finally` block
and once more in `main`'s exception handler. -/
theorem clean_repo_once_normally_twice_on_exception (env : AnalyzerEnv)
    (fs : FileSys) (vcs : List (SemVer × String)) :
    ((collect_all_metrics env fs vcs).exc = none →
      (mainRun env fs vcs).events.count REvent.cleanRepo = 1) ∧
    ∀ e, (collect_all_metrics env fs vcs).exc = some e →
      (mainRun env fs vcs).events.count REvent.cleanRepo = 2 := by
  have hc := collect_count_clean env fs vcs
  constructor
  · intro h
    unfold mainRun
    dsimp only
    rw [h]
    exact hc
  · intro e he
    cases e
    all_goals
      unfold mainRun
      dsimp only
      rw [he]
      simp [List.count_append, List.count_cons, hc]

/-- C2 counterexample: a user interruption during the first loop
iteration makes `clean_repo` run twice in one pipeline invocation —
once in the `finally` block of `collect_all_metrics` and once in
`main`'s `KeyboardInterrupt` handler — so it is not executed exactly
once on every exit path. -/
theorem clean_repo_twice_on_interrupt_cex :
    (collect_all_metrics
        (AnalyzerEnv.mk (fun _ => true) (fun _ => true) (fun _ => []) (some 0))
        (FileSys.mk [] [] ("master")) [((2, 0, 0), "c1")]).exc =
        some PyExc.keyboardInterrupt ∧
      (mainRun
        (AnalyzerEnv.mk (fun _ => true) (fun _ => true) (fun _ => []) (some 0))
        (FileSys.mk [] [] ("master")) [((2, 0, 0), "c1")]).events.count
        REvent.cleanRepo = 2 := by
  constructor
  · decide
  · decide

/-- Witness for C2 (amended): a run with no versions completes normally
and `clean_repo` runs exactly once. -/
theorem clean_repo_once_normally_twice_on_exception_witness :
    (mainRun (AnalyzerEnv.mk (fun _ => true) (fun _ => true) (fun _ => []) none)
      (FileSys.mk [] [] ("master")) []).events.count REvent.cleanRepo = 1 :=
  (clean_repo_once_normally_twice_on_exception
    (AnalyzerEnv.mk (fun _ => true) (fun _ => true) (fun _ => []) none)
    (FileSys.mk [] [] ("master")) []).1 (by decide)

/-- C1 counterexample: with an empty cache and an analyzer whose
`create` step exits non-zero, the first version's `CalledProcessError`
propagates out of the loop: the run ends with the exception, the second
version is never checked out (never processed), and no row is written —
processing does not proceed to the next version. -/
theorem analyzer_create_failure_stops_run_cex :
    (collect_all_metrics
        (AnalyzerEnv.mk (fun _ => false) (fun _ => true) (fun _ => []) none)
        (FileSys.mk [] [] ("master"))
        [((2, 0, 0), "c1"), ((2, 1, 0), "c2")]).exc =
        some PyExc.calledProcessError ∧
      REvent.checkout ("c2") ∉
        (collect_all_metrics
          (AnalyzerEnv.mk (fun _ => false) (fun _ => true) (fun _ => []) none)
          (FileSys.mk [] [] ("master"))
          [((2, 0, 0), "c1"), ((2, 1, 0), "c2")]).events ∧
      (collect_all_metrics
        (AnalyzerEnv.mk (fun _ => false) (fun _ => true) (fun _ => []) none)
        (FileSys.mk [] [] ("master"))
        [((2, 0, 0), "c1"), ((2, 1, 0), "c2")]).rows = [] := by
  refine ⟨?_, ?_, ?_⟩
  · decide
  · decide
  · decide

/-- C1 (amended): when the analyzer subprocess invoked by
`create_understand_db` exits non-zero on a cache-missing version, that
version's extraction is abandoned, but the re-raised
`CalledProcessError` terminates the whole run: `collect_all_metrics`
performs only that version's checkout, cache check and failed create,
runs the `finally` `clean_repo`, writes no row for the version, and
never reaches the remaining versions.  (Only a non-zero exit of the
`und metrics` step inside `get_metrics` is per-version recoverable.) -/
theorem analyzer_create_failure_aborts (env : AnalyzerEnv) (fs : FileSys)
    (v : SemVer) (commit : String) (rest : List (SemVer × String))
    (hint : env.interruptAt ≠ some 0)
    (hmiss : fsExists fs (csvPath v) = false)
    (hfail : env.createOk commit = false) :
    collect_all_metrics env fs ((v, commit) :: rest) =
      { fs := clean_repo (checkoutFs fs commit),
        events := [REvent.checkout commit, REvent.cacheCheck (csvPath v) false,
          REvent.undCreate commit (dbPath v), REvent.cleanRepo],
        rows := [], exc := some PyExc.calledProcessError } := by
  unfold collect_all_metrics runVersions
  dsimp only
  simp only [hint, if_false]
  rw [stepVersion_miss_fail env fs v commit hmiss hfail]
  simp

/-- Witness for C1 (amended), at a concrete failing environment. -/
theorem analyzer_create_failure_aborts_witness :
    collect_all_metrics
        (AnalyzerEnv.mk (fun _ => false) (fun _ => true) (fun _ => []) none)
        (FileSys.mk [] [] ("master")) [((2, 0, 0), "c9")] =
      { fs := clean_repo (checkoutFs (FileSys.mk [] [] ("master")) ("c9")),
        events := [REvent.checkout ("c9"),
          REvent.cacheCheck (csvPath (2, 0, 0)) false,
          REvent.undCreate ("c9") (dbPath (2, 0, 0)), REvent.cleanRepo],
        rows := [], exc := some PyExc.calledProcessError } :=
  analyzer_create_failure_aborts
    (AnalyzerEnv.mk (fun _ => false) (fun _ => true) (fun _ => []) none)
    (FileSys.mk [] [] ("master")) (2, 0, 0) ("c9") []
    (by decide) (by decide) (by decide)

/-- Every version the loop reaches has its commit's checkout event in
the trace, for a run that ends without an exception. -/
theorem runVersions_checkout_mem (env : AnalyzerEnv) :
    ∀ (vcs : List (SemVer × String)) (fs : FileSys) (idx : Nat),
      (runVersions env fs idx vcs).exc = none →
      ∀ vc ∈ vcs, REvent.checkout vc.2 ∈ (runVersions env fs idx vcs).events := by
  intro vcs
  induction vcs with
  | nil =>
    intro fs idx h vc hvc
    simp at hvc
  | cons vc2 rest ih =>
    intro fs idx hexc vc hvc
    unfold runVersions at hexc ⊢
    dsimp only at hexc ⊢
    by_cases hint : env.interruptAt = some idx
    · simp [hint] at hexc
    · simp only [hint, if_false] at hexc ⊢
      by_cases hok : (stepVersion env fs vc2.1 vc2.2).ok = true
      · simp only [hok, if_true] at hexc ⊢
        rcases List.mem_cons.mp hvc with heq | hmem
        · subst heq
          apply List.mem_append_left
          obtain ⟨tail, hev, -⟩ := stepVersion_events_shape env fs vc.1 vc.2
          rw [hev]
          simp
        · exact List.mem_append_right _
            (ih (stepVersion env fs vc2.1 vc2.2).fs (idx + 1) hexc vc hmem)
      · simp only [hok, if_false] at hexc
        simp at hexc

/-- C10: in every loop iteration the working tree is checked out to the
version's commit before the artifact cache is consulted (the first two
events of the iteration are the checkout and the cache check, in that
order), and on a run without exception every version of the list gets
its checkout — in particular also the versions served from the cache. -/
theorem checkout_every_version_before_cache (env : AnalyzerEnv) :
    (∀ (fs : FileSys) (idx : Nat) (v : SemVer) (commit : String)
      (rest : List (SemVer × String)), env.interruptAt ≠ some idx →
      ∃ tail, (runVersions env fs idx ((v, commit) :: rest)).events =
        REvent.checkout commit ::
          REvent.cacheCheck (csvPath v) (fsExists fs (csvPath v)) :: tail) ∧
    (∀ (fs : FileSys) (idx : Nat) (vcs : List (SemVer × String)),
      (runVersions env fs idx vcs).exc = none →
      ∀ vc ∈ vcs,
        REvent.checkout vc.2 ∈ (runVersions env fs idx vcs).events) := by
  constructor
  · intro fs idx v commit rest hint
    unfold runVersions
    dsimp only
    simp only [hint, if_false]
    obtain ⟨tail, hev, -⟩ := stepVersion_events_shape env fs v commit
    by_cases hok : (stepVersion env fs v commit).ok = true
    · simp only [hok, if_true]
      refine ⟨tail ++
        (runVersions env (stepVersion env fs v commit).fs (idx + 1) rest).events,
        ?_⟩
      rw [hev]
      simp
    · simp only [hok, if_false]
      exact ⟨tail, hev⟩
  · exact fun fs idx vcs h vc hvc => runVersions_checkout_mem env vcs fs idx h vc hvc

/-- Witness for C10: a concrete cache-hit run — the artifact for version
2.0.0 already exists, the database-creation step is skipped, and the
checkout event is still first in the trace. -/
theorem checkout_every_version_before_cache_witness :
    REvent.checkout ("c1") ∈
      (runVersions
        (AnalyzerEnv.mk (fun _ => true) (fun _ => true) (fun _ => []) none)
        (FileSys.mk [(("data/understand_db_2_0_0.csv"), [])] [] ("master")) 0
        [((2, 0, 0), "c1")]).events :=
  (checkout_every_version_before_cache
    (AnalyzerEnv.mk (fun _ => true) (fun _ => true) (fun _ => []) none)).2
    (FileSys.mk [(("data/understand_db_2_0_0.csv"), [])] [] ("master")) 0
    [((2, 0, 0), "c1")] (by decide) ((2, 0, 0), ("c1")) (by decide)

/-- Every rendered row has one cell per field name. -/
theorem rowOf_length (v : SemVer) (commit : String) (rec : MetricsRec) :
    (rowOf v commit rec).length = 3 + METRICS.length := by
  simp [rowOf, writeRowDict, FIELDNAMES]
  omega

/-- The rows of one loop iteration all come from `rowOf` applied to the
version and commit at hand. -/
theorem stepVersion_rows_shape (env : AnalyzerEnv) (fs : FileSys)
    (v : SemVer) (commit : String) :
    ∃ l : List MetricsRec, (stepVersion env fs v commit).rows =
      l.map (fun rec => rowOf v commit rec) := by
  unfold stepVersion finishStep
  dsimp only
  split
  · split
    · exact ⟨_, rfl⟩
    · exact ⟨_, rfl⟩
  · split
    · split
      · exact ⟨_, rfl⟩
      · exact ⟨_, rfl⟩
    · exact ⟨[], rfl⟩

/-- Every row a loop iteration contributes has the full column count. -/
theorem stepVersion_rows_length (env : AnalyzerEnv) (fs : FileSys)
    (v : SemVer) (commit : String) :
    ∀ row ∈ (stepVersion env fs v commit).rows,
      row.length = 3 + METRICS.length := by
  intro row hrow
  obtain ⟨l, hl⟩ := stepVersion_rows_shape env fs v commit
  rw [hl] at hrow
  obtain ⟨rec, -, hrec⟩ := List.mem_map.mp hrow
  rw [← hrec]
  exact rowOf_length v commit rec

/-- Every row the version loop writes has the full column count. -/
theorem runVersions_rows_length (env : AnalyzerEnv) :
    ∀ (vcs : List (SemVer × String)) (fs : FileSys) (idx : Nat),
      ∀ row ∈ (runVersions env fs idx vcs).rows,
        row.length = 3 + METRICS.length := by
  intro vcs
  induction vcs with
  | nil =>
    intro fs idx row hrow
    simp [runVersions] at hrow
  | cons vc rest ih =>
    intro fs idx row hrow
    unfold runVersions at hrow
    dsimp only at hrow
    by_cases hint : env.interruptAt = some idx
    · simp [hint] at hrow
    · simp only [hint, if_false] at hrow
      by_cases hok : (stepVersion env fs vc.1 vc.2).ok = true
      · simp only [hok, if_true] at hrow
        rcases List.mem_append.mp hrow with hmem | hmem
        · exact stepVersion_rows_length env fs vc.1 vc.2 row hmem
        · exact ih (stepVersion env fs vc.1 vc.2).fs (idx + 1) row hmem
      · simp only [hok, if_false] at hrow
        exact stepVersion_rows_length env fs vc.1 vc.2 row hrow

/-- C6: the output table's column schema is the three identity columns
Version, CommitId, File followed by the declared metric names in
declared order, and every data row written by `collect_all_metrics` has
exactly `3 + number of declared metric names` cells. -/
theorem output_table_schema (env : AnalyzerEnv) (fs : FileSys)
    (vcs : List (SemVer × String)) :
    (outputTable (collect_all_metrics env fs vcs)).headD [] =
        ["Version", "CommitId", "File"] ++ METRICS ∧
      ∀ row ∈ (collect_all_metrics env fs vcs).rows,
        row.length = 3 + METRICS.length := by
  constructor
  · rfl
  · intro row hrow
    unfold collect_all_metrics at hrow
    dsimp only at hrow
    exact runVersions_rows_length env vcs fs 0 row hrow

/-- Witness for C6: the concrete run yields a 46-cell first data row. -/
theorem output_table_schema_witness :
    (((collect_all_metrics
        (AnalyzerEnv.mk (fun _ => true) (fun _ => true)
          (fun _ => ["Kind,Name",
            "File,1,2,3,4,5,6,7,8,9,10,11,12,13,14,15,16,17,18,19,20,21,22,23,24,25,26,27,28,29,30,31,32,33,34,35,36,37,38,39,40,41,42,43"])
          none)
        (FileSys.mk [] [] ("master")) [((2, 0, 0), "c1")]).rows).headD
      []).length = 3 + METRICS.length :=
  (output_table_schema
    (AnalyzerEnv.mk (fun _ => true) (fun _ => true)
      (fun _ => ["Kind,Name",
        "File,1,2,3,4,5,6,7,8,9,10,11,12,13,14,15,16,17,18,19,20,21,22,23,24,25,26,27,28,29,30,31,32,33,34,35,36,37,38,39,40,41,42,43"])
      none)
    (FileSys.mk [] [] ("master")) [((2, 0, 0), "c1")]).2 _ (by decide)

/-- Analyzer-call counting distributes over trace concatenation. -/
theorem analyzerCalls_append (a b : List REvent) :
    analyzerCalls (a ++ b) = analyzerCalls a + analyzerCalls b := by
  unfold analyzerCalls
  rw [List.countP_append]

/-- A run that ends without exception never reached the injected
interruption index. -/
theorem runVersions_no_interrupt (env : AnalyzerEnv) :
    ∀ (vcs : List (SemVer × String)) (fs : FileSys) (idx : Nat),
      (runVersions env fs idx vcs).exc = none →
      ∀ k < vcs.length, env.interruptAt ≠ some (idx + k) := by
  intro vcs
  induction vcs with
  | nil =>
    intro fs idx hexc k hk
    simp at hk
  | cons vc rest ih =>
    intro fs idx hexc k hk
    unfold runVersions at hexc
    dsimp only at hexc
    by_cases hint : env.interruptAt = some idx
    · simp [hint] at hexc
    · simp only [hint, if_false] at hexc
      by_cases hok : (stepVersion env fs vc.1 vc.2).ok = true
      · simp only [hok, if_true] at hexc
        cases k with
        | zero => simpa using hint
        | succ k2 =>
          intro heq
          have hlt : k2 < rest.length := by
            simp only [List.length_cons] at hk
            omega
          apply ih (stepVersion env fs vc.1 vc.2).fs (idx + 1) hexc k2 hlt
          rw [heq]
          congr 1
          omega
      · simp only [hok, if_false] at hexc
        simp at hexc

/-- A run that completes without exception, with the metrics-export step
succeeding for every version, leaves the artifact of every version on
disk, and the rows it wrote are precisely those read back from the final
artifacts. -/
theorem runVersions_completed_run (env : AnalyzerEnv) :
    ∀ (vcs : List (SemVer × String)) (fs : FileSys) (idx : Nat),
      (runVersions env fs idx vcs).exc = none →
      (∀ vc ∈ vcs, env.metricsOk (dbPath vc.1) = true) →
      (∀ vc ∈ vcs, ∃ c,
        fsLookup (runVersions env fs idx vcs).fs (csvPath vc.1) = some c) ∧
      (runVersions env fs idx vcs).rows =
        vcs.flatMap (fun vc => cachedRows (runVersions env fs idx vcs).fs vc) := by
  intro vcs
  induction vcs with
  | nil =>
    intro fs idx hexc hmet
    exact ⟨fun vc hvc => absurd hvc (List.not_mem_nil vc), rfl⟩
  | cons vc0 rest ih =>
    rcases vc0 with ⟨v, commit⟩
    intro fs idx hexc hmet
    unfold runVersions at hexc ⊢
    dsimp only at hexc ⊢
    by_cases hint : env.interruptAt = some idx
    · simp [hint] at hexc
    · simp only [hint, if_false] at hexc ⊢
      by_cases hok : (stepVersion env fs v commit).ok = true
      · simp only [hok, if_true] at hexc ⊢
        have hmet0 : env.metricsOk (dbPath v) = true :=
          hmet (v, commit) (List.mem_cons_self _ _)
        have hmetrest : ∀ vc ∈ rest, env.metricsOk (dbPath vc.1) = true :=
          fun vc hvc => hmet vc (List.mem_cons_of_mem _ hvc)
        obtain ⟨hartrest, hrowsrest⟩ :=
          ih (stepVersion env fs v commit).fs (idx + 1) hexc hmetrest
        by_cases hex : fsExists fs (csvPath v) = true
        · obtain ⟨-, hrows0, hfiles0, -⟩ :=
            stepVersion_cache_hit env fs v commit hex
          obtain ⟨c0, hc0⟩ : ∃ c, fsLookup fs (csvPath v) = some c := by
            unfold fsExists at hex
            exact Option.isSome_iff_exists.mp hex
          have hcS : fsLookup (stepVersion env fs v commit).fs (csvPath v) =
              some c0 := by
            rw [fsLookup_congr (csvPath v) hfiles0]
            exact hc0
          have hcR : fsLookup
              (runVersions env (stepVersion env fs v commit).fs (idx + 1)
                rest).fs (csvPath v) = some c0 :=
            runVersions_preserves_file env rest
              (stepVersion env fs v commit).fs (idx + 1) (csvPath v) hcS
          constructor
          · intro vc hvc
            rcases List.mem_cons.mp hvc with heq | hmem
            · subst heq
              exact ⟨c0, hcR⟩
            · exact hartrest vc hmem
          · rw [hrows0, hrowsrest]
            have hcache : cachedRows fs (v, commit) =
                cachedRows (runVersions env (stepVersion env fs v commit).fs
                  (idx + 1) rest).fs (v, commit) := by
              unfold cachedRows
              rw [hc0, hcR]
            rw [hcache]
            rw [List.flatMap_cons]
        · have hex2 : fsExists fs (csvPath v) = false := by simpa using hex
          by_cases hcr : env.createOk commit = true
          · obtain ⟨-, hrows0, hfiles0⟩ :=
              stepVersion_miss_ok env fs v commit hex2 hcr hmet0
            have hcS : fsLookup (stepVersion env fs v commit).fs (csvPath v) =
                some (env.metricsOut (dbPath v)) := by
              rw [fsLookup_eq_of_files hfiles0]
              simp [List.find?]
            have hcR : fsLookup
                (runVersions env (stepVersion env fs v commit).fs (idx + 1)
                  rest).fs (csvPath v) = some (env.metricsOut (dbPath v)) :=
              runVersions_preserves_file env rest
                (stepVersion env fs v commit).fs (idx + 1) (csvPath v) hcS
            constructor
            · intro vc hvc
              rcases List.mem_cons.mp hvc with heq | hmem
              · subst heq
                exact ⟨env.metricsOut (dbPath v), hcR⟩
              · exact hartrest vc hmem
            · rw [hrows0, hrowsrest]
              have hcache :
                  (parseMetricsFile (env.metricsOut (dbPath v))).map
                    (fun rec => rowOf v commit rec) =
                  cachedRows (runVersions env (stepVersion env fs v commit).fs
                    (idx + 1) rest).fs (v, commit) := by
                unfold cachedRows
                rw [hcR]
                rfl
              rw [hcache]
              rw [List.flatMap_cons]
          · have hcr2 : env.createOk commit = false := by simpa using hcr
            have hfail := stepVersion_miss_fail env fs v commit hex2 hcr2
            rw [hfail] at hok
            simp at hok
      · simp only [hok, if_false] at hexc
        simp at hexc

/-- A run whose every version already has its artifact takes the
cache-hit branch throughout: it completes without exception, invokes no
analyzer subprocess, leaves the artifact map untouched, and its rows are
read back from the artifacts of the starting state. -/
theorem runVersions_all_cached (env : AnalyzerEnv) :
    ∀ (vcs : List (SemVer × String)) (fs : FileSys) (idx : Nat),
      (∀ vc ∈ vcs, fsExists fs (csvPath vc.1) = true) →
      (∀ k < vcs.length, env.interruptAt ≠ some (idx + k)) →
      (runVersions env fs idx vcs).exc = none ∧
      (runVersions env fs idx vcs).fs.files = fs.files ∧
      (runVersions env fs idx vcs).rows =
        vcs.flatMap (fun vc => cachedRows fs vc) ∧
      analyzerCalls (runVersions env fs idx vcs).events = 0 := by
  intro vcs
  induction vcs with
  | nil =>
    intro fs idx hcache hno
    exact ⟨rfl, rfl, rfl, rfl⟩
  | cons vc0 rest ih =>
    rcases vc0 with ⟨v, commit⟩
    intro fs idx hcache hno
    have hint : ¬ env.interruptAt = some idx := by
      have := hno 0 (by simp)
      simpa using this
    have hex : fsExists fs (csvPath v) = true :=
      hcache (v, commit) (List.mem_cons_self _ _)
    obtain ⟨hok, hrows0, hfiles0, hana0⟩ :=
      stepVersion_cache_hit env fs v commit hex
    unfold runVersions
    dsimp only
    simp only [hint, if_false, hok, if_true]
    have hcacherest : ∀ vc ∈ rest,
        fsExists (stepVersion env fs v commit).fs (csvPath vc.1) = true := by
      intro vc hvc
      rw [fsExists_congr (csvPath vc.1) hfiles0]
      exact hcache vc (List.mem_cons_of_mem _ hvc)
    have hnorest : ∀ k < rest.length, env.interruptAt ≠ some ((idx + 1) + k) := by
      intro k hk heq
      apply hno (k + 1) (by simp only [List.length_cons]; omega)
      rw [heq]
      congr 1
      omega
    obtain ⟨hexc1, hfiles1, hrows1, hana1⟩ :=
      ih (stepVersion env fs v commit).fs (idx + 1) hcacherest hnorest
    refine ⟨hexc1, ?_, ?_, ?_⟩
    · rw [hfiles1, hfiles0]
    · rw [hrows0, hrows1]
      have hfun : (fun vc => cachedRows (stepVersion env fs v commit).fs vc) =
          (fun vc => cachedRows fs vc) :=
        funext (fun vc => cachedRows_congr vc hfiles0)
      rw [hfun]
      rw [List.flatMap_cons]
    · rw [analyzerCalls_append, hana0, hana1]

/-- C3 (amended): re-running `collect_all_metrics` on the state left by
a completed run, provided the metrics-export step succeeded for every
version in the first run (equivalently: the first run left every
version's artifact), produces the identical output table, completes
without exception, and never invokes the analyzer — the cache-hit
branch, keyed by the artifact path's existence, is taken for every
version. -/
theorem second_run_cached (env : AnalyzerEnv) (fs : FileSys)
    (vcs : List (SemVer × String))
    (hexc : (collect_all_metrics env fs vcs).exc = none)
    (hmet : ∀ vc ∈ vcs, env.metricsOk (dbPath vc.1) = true) :
    outputTable
        (collect_all_metrics env (collect_all_metrics env fs vcs).fs vcs) =
        outputTable (collect_all_metrics env fs vcs) ∧
      (collect_all_metrics env (collect_all_metrics env fs vcs).fs vcs).exc =
        none ∧
      analyzerCalls
        (collect_all_metrics env
          (collect_all_metrics env fs vcs).fs vcs).events = 0 := by
  have hexc1 : (runVersions env fs 0 vcs).exc = none := hexc
  obtain ⟨hart, hrows1⟩ := runVersions_completed_run env vcs fs 0 hexc1 hmet
  have hnoint := runVersions_no_interrupt env vcs fs 0 hexc1
  have hcache2 : ∀ vc ∈ vcs,
      fsExists (collect_all_metrics env fs vcs).fs (csvPath vc.1) = true := by
    intro vc hvc
    obtain ⟨c, hc⟩ := hart vc hvc
    have hcc : fsLookup (collect_all_metrics env fs vcs).fs (csvPath vc.1) =
        some c := hc
    unfold fsExists
    rw [hcc]
    rfl
  obtain ⟨hexc2, hfiles2, hrows2, hana2⟩ :=
    runVersions_all_cached env vcs (collect_all_metrics env fs vcs).fs 0
      hcache2 hnoint
  refine ⟨?_, hexc2, ?_⟩
  · unfold outputTable
    congr 1
    show (runVersions env (collect_all_metrics env fs vcs).fs 0 vcs).rows =
      (runVersions env fs 0 vcs).rows
    rw [hrows2]
    have hfun : (fun vc => cachedRows (collect_all_metrics env fs vcs).fs vc) =
        (fun vc => cachedRows (runVersions env fs 0 vcs).fs vc) :=
      funext (fun vc => cachedRows_congr vc rfl)
    rw [hfun]
    exact hrows1.symm
  · show analyzerCalls
      ((runVersions env (collect_all_metrics env fs vcs).fs 0 vcs).events ++
        [REvent.cleanRepo]) = 0
    rw [analyzerCalls_append, hana2]
    rfl

/-- C3 counterexample: with an analyzer whose `und metrics` step exits
non-zero, the first run completes normally (the error is caught inside
`get_metrics`) but leaves no artifact, so the second run against the
unchanged state invokes the analyzer again instead of taking the
cache-hit branch for every version. -/
theorem second_run_reinvokes_analyzer_cex :
    (collect_all_metrics
        (AnalyzerEnv.mk (fun _ => true) (fun _ => false) (fun _ => []) none)
        (FileSys.mk [] [] ("master")) [((2, 0, 0), "c1")]).exc = none ∧
      analyzerCalls
        (collect_all_metrics
          (AnalyzerEnv.mk (fun _ => true) (fun _ => false) (fun _ => []) none)
          (collect_all_metrics
            (AnalyzerEnv.mk (fun _ => true) (fun _ => false) (fun _ => []) none)
            (FileSys.mk [] [] ("master")) [((2, 0, 0), "c1")]).fs
          [((2, 0, 0), "c1")]).events ≠ 0 := by
  constructor
  · decide
  · decide

/-- Witness for C3 (amended), at a concrete succeeding environment. -/
theorem second_run_cached_witness :
    (collect_all_metrics
        (AnalyzerEnv.mk (fun _ => true) (fun _ => true)
          (fun _ => ["Kind,Name", "File,1"]) none)
        (collect_all_metrics
          (AnalyzerEnv.mk (fun _ => true) (fun _ => true)
            (fun _ => ["Kind,Name", "File,1"]) none)
          (FileSys.mk [] [] ("master")) [((2, 0, 0), "c1")]).fs
        [((2, 0, 0), "c1")]).exc = none :=
  (second_run_cached
    (AnalyzerEnv.mk (fun _ => true) (fun _ => true)
      (fun _ => ["Kind,Name", "File,1"]) none)
    (FileSys.mk [] [] ("master")) [((2, 0, 0), "c1")]
    (by decide) (by decide)).2.1
